import Mathlib

/-!
Shallow embedding of the incremental type-symbol extraction and caching
engine of the Make-Type-Hint-Great editor extension.

The embedding follows the TypeScript source:

* JavaScript Map objects (insertion ordered, unique keys, set replaces the
  value in place, delete-during-iteration behaves like a filter) are modelled
  as association lists over String keys (mapGet, mapSet, mapDelete).
* The CustomTypes registry (src/typeData/CustomTypes.ts) is a structure with
  the six category maps, the type-usage statistics map and a counter of how
  often the typesChanged event fired.
* The TypeCache (settings.ts, class TypeCache) subscribes to the registry and
  bumps its currentVersion on every change notification; since the event
  emitter invokes the listener synchronously, firing the event is modelled as
  one step that increments both the fired-event counter and currentVersion.
  Registry and cache are process-wide singletons, bundled here in a World.
* Thrown JavaScript errors are modelled with Except String: a throw before
  any mutation leaves the caller with the unchanged state.
* Syntax trees of the tree-sitter parser are modelled by TSNode (the parser's
  SyntaxNode: a kind tag, the covered source text, and the ordered child list,
  anonymous token nodes included, as exposed by the node.children accessor).
-/

/-- Result of looking a key up in a JS Map (Map.prototype.get). -/
def mapGet {α : Type} (m : List (String × α)) (k : String) : Option α :=
  (m.find? (fun p => p.1 == k)).map (fun p => p.2)

/-- Map.prototype.set: replace the value in place if the key exists
(iteration order keeps the original position), otherwise append. -/
def mapSet {α : Type} (m : List (String × α)) (k : String) (v : α) :
    List (String × α) :=
  if m.any (fun p => p.1 == k) then
    m.map (fun p => if p.1 == k then (k, v) else p)
  else
    m ++ [(k, v)]

/-- Map.prototype.delete of every entry whose value is mapped to the given
file path; deleting entries during a for..of iteration over a JS Map skips
exactly the deleted entries, so the loop behaves as a filter. -/
def removeFromMap {α : Type} (m : List (String × α)) (getPath : α → String)
    (filePath : String) : List (String × α) :=
  m.filter (fun p => ¬ (getPath p.2 = filePath))

/-- Entry of the localClasses map: defining file path and base-class list. -/
structure LocalClassInfo where
  filePath : String
  baseClasses : List String
deriving DecidableEq, Repr

/-- Entry of the importedClasses map: original (pre-alias) name and the file
the import statement lives in. -/
structure ImportedClassInfo where
  originalName : String
  filePath : String
deriving DecidableEq, Repr

/-- Entry of the typeAliases map. -/
structure TypeAliasInfo where
  originalType : String
  filePath : String
deriving DecidableEq, Repr

/-- Entry of the typeVars map. -/
structure TypeVarInfo where
  constraints : List String
  filePath : String
deriving DecidableEq, Repr

/-- One protocol method: parameter names and return-type text. -/
structure ProtocolMethodInfo where
  params : List String
  returnType : String
deriving DecidableEq, Repr

/-- Entry of the protocols map: method table (a JS object, modelled as an
association list) and defining file. -/
structure ProtocolInfo where
  methods : List (String × ProtocolMethodInfo)
  filePath : String
deriving DecidableEq, Repr

/-- A literal value as stored by the registry. JavaScript holds
string | number | boolean; a number produced by Number(text) is represented
by the text it was converted from (the claims under study only involve
string literals, where the code stores the raw node text). -/
inductive LitValue where
  | str (s : String)
  | num (text : String)
  | bool (b : Bool)
deriving DecidableEq, Repr

/-- Entry of the literalTypes map. -/
structure LiteralTypeInfo where
  values : List LitValue
  filePath : String
deriving DecidableEq, Repr

/-- Type usage statistics record (interface TypeStats). -/
structure TypeStats where
  count : Nat
  category : String
deriving DecidableEq, Repr

/-- State of the CustomTypes singleton: the six category maps, the
statistics map, and how many times the typesChanged event has fired. -/
structure CustomTypesState where
  localClasses : List (String × LocalClassInfo) := []
  importedClasses : List (String × ImportedClassInfo) := []
  typeAliases : List (String × TypeAliasInfo) := []
  typeVars : List (String × TypeVarInfo) := []
  protocols : List (String × ProtocolInfo) := []
  literalTypes : List (String × LiteralTypeInfo) := []
  typeStats : List (String × TypeStats) := []
  notifyCount : Nat := 0
deriving DecidableEq, Repr

/-- A completion item as far as the cache layer is concerned (label,
sortText and detail as built by the completion processors; the remaining
CompletionItem fields play no role in the cached-value lifecycle). -/
structure CompletionItem where
  label : String
  sortText : String := ""
  detail : String := ""
deriving DecidableEq, Repr

/-- A cache entry of TypeCache: item list, version stamp taken from
currentVersion at creation, and the owning document's URI string. -/
structure CacheEntry where
  items : List CompletionItem
  version : Nat
  document : String
deriving DecidableEq, Repr

/-- State of the TypeCache singleton. -/
structure TypeCacheState where
  cache : List (String × CacheEntry) := []
  currentVersion : Nat := 0
deriving DecidableEq, Repr

/-- The process-wide state: the CustomTypes registry singleton plus the
TypeCache singleton that listens to its change events. -/
structure World where
  types : CustomTypesState := {}
  typeCache : TypeCacheState := {}
deriving DecidableEq, Repr

/-- CustomTypes.notifyTypesChanged: fire the typesChanged emitter. The
TypeCache constructor registered a listener that increments currentVersion,
and EventEmitter.fire invokes listeners synchronously, so one fire equals
one version increment. -/
def notifyTypesChanged (w : World) : World :=
  { w with
    types := { w.types with notifyCount := w.types.notifyCount + 1 }
    typeCache :=
      { w.typeCache with currentVersion := w.typeCache.currentVersion + 1 } }

/-- Increment the usage count for a type name in the statistics map
(CustomTypes.updateTypeStats): start from the stored record or a fresh
record with the given category, bump the count, store it back. -/
def bumpStat (ts : List (String × TypeStats)) (typeName category : String) :
    List (String × TypeStats) :=
  let stats := (mapGet ts typeName).getD { count := 0, category := category }
  mapSet ts typeName { count := stats.count + 1, category := stats.category }

/-- CustomTypes.updateTypeStats lifted to the registry state. -/
def updateTypeStats (s : CustomTypesState) (typeName category : String) :
    CustomTypesState :=
  { s with typeStats := bumpStat s.typeStats typeName category }

/-- CustomTypes.resetTypeStats: clear the statistics map and re-count every
entry of every category map, in declaration order. -/
def resetTypeStats (s : CustomTypesState) : CustomTypesState :=
  { s with
    typeStats :=
      let t1 := s.localClasses.foldl
        (fun ts p => bumpStat ts p.1 "LocalClass") []
      let t2 := s.importedClasses.foldl
        (fun ts p => bumpStat ts p.1 "ImportedClass") t1
      let t3 := s.typeAliases.foldl
        (fun ts p => bumpStat ts p.1 "TypeAlias") t2
      let t4 := s.typeVars.foldl
        (fun ts p => bumpStat ts p.1 "TypeVar") t3
      let t5 := s.protocols.foldl
        (fun ts p => bumpStat ts p.1 "Protocol") t4
      s.literalTypes.foldl
        (fun ts p => bumpStat ts p.1 "LiteralType") t5 }

/-- CustomTypes.addLocalClass: reject empty class name or file path by
throwing (modelled as Except.error, surfaced before any mutation), otherwise
upsert into localClasses, update the statistics, and fire the change event
exactly once. -/
def addLocalClass (w : World) (className filePath : String)
    (baseClasses : List String := []) : Except String World :=
  if className = "" ∨ filePath = "" then
    Except.error "类名和文件路径不能为空"
  else
    Except.ok (notifyTypesChanged
      { w with
        types :=
          updateTypeStats
            { w.types with
              localClasses := mapSet w.types.localClasses className
                { filePath := filePath, baseClasses := baseClasses } }
            className "LocalClass" })

/-- The JavaScript expression alias or-else className: an absent or empty
alias falls back to the class name. -/
def jsOrElse (aliasName : Option String) (className : String) : String :=
  match aliasName with
  | some a => if a = "" then className else a
  | none => className

/-- CustomTypes.addImportedClass: upsert keyed by the alias when one is
given (JS alias-or-className), no input validation, one change event. -/
def addImportedClass (w : World) (className filePath : String)
    (aliasName : Option String := none) : World :=
  notifyTypesChanged
    { w with
      types :=
        updateTypeStats
          { w.types with
            importedClasses := mapSet w.types.importedClasses
              (jsOrElse aliasName className)
              { originalName := className, filePath := filePath } }
          className "ImportedClass" }

/-- CustomTypes.addTypeAlias: upsert, statistics, one change event. -/
def addTypeAlias (w : World) (name originalType filePath : String) : World :=
  notifyTypesChanged
    { w with
      types :=
        updateTypeStats
          { w.types with
            typeAliases := mapSet w.types.typeAliases name
              { originalType := originalType, filePath := filePath } }
          name "TypeAlias" }

/-- CustomTypes.addTypeVar: upsert, statistics, one change event. -/
def addTypeVar (w : World) (name : String) (constraints : List String)
    (filePath : String) : World :=
  notifyTypesChanged
    { w with
      types :=
        updateTypeStats
          { w.types with
            typeVars := mapSet w.types.typeVars name
              { constraints := constraints, filePath := filePath } }
          name "TypeVar" }

/-- CustomTypes.addProtocol: upsert, statistics, one change event. -/
def addProtocol (w : World) (name : String)
    (methods : List (String × ProtocolMethodInfo)) (filePath : String) :
    World :=
  notifyTypesChanged
    { w with
      types :=
        updateTypeStats
          { w.types with
            protocols := mapSet w.types.protocols name
              { methods := methods, filePath := filePath } }
          name "Protocol" }

/-- CustomTypes.addLiteralType: upsert, statistics, one change event. -/
def addLiteralType (w : World) (name : String) (values : List LitValue)
    (filePath : String) : World :=
  notifyTypesChanged
    { w with
      types :=
        updateTypeStats
          { w.types with
            literalTypes := mapSet w.types.literalTypes name
              { values := values, filePath := filePath } }
          name "LiteralType" }

/-- CustomTypes.removeFileClasses: bulk-remove the given file's entries from
localClasses and importedClasses, then fire the change event once. -/
def removeFileClasses (w : World) (filePath : String) : World :=
  notifyTypesChanged
    { w with
      types :=
        { w.types with
          localClasses :=
            removeFromMap w.types.localClasses LocalClassInfo.filePath
              filePath
          importedClasses :=
            removeFromMap w.types.importedClasses ImportedClassInfo.filePath
              filePath } }

/-- CustomTypes.removeAllFileData: bulk-remove the given file's entries from
all six category maps, rebuild the statistics, then fire the change event
exactly once for the whole bulk removal. -/
def removeAllFileData (w : World) (filePath : String) : World :=
  notifyTypesChanged
    { w with
      types :=
        resetTypeStats
          { w.types with
            localClasses :=
              removeFromMap w.types.localClasses LocalClassInfo.filePath
                filePath
            importedClasses :=
              removeFromMap w.types.importedClasses ImportedClassInfo.filePath
                filePath
            typeAliases :=
              (w.types.typeAliases.filter
                (fun p => ¬ (p.2.filePath = filePath)))
            typeVars :=
              (w.types.typeVars.filter
                (fun p => ¬ (p.2.filePath = filePath)))
            protocols :=
              (w.types.protocols.filter
                (fun p => ¬ (p.2.filePath = filePath)))
            literalTypes :=
              (w.types.literalTypes.filter
                (fun p => ¬ (p.2.filePath = filePath))) } }

/-- Insert into the JS Set backing getClassSource (Set.prototype.add keeps
first occurrences, Array.from preserves insertion order). -/
def insertUnique (l : List String) (x : String) : List String :=
  if l.contains x then l else l ++ [x]

/-- CustomTypes.getClassSource: collect the defining file of the local class
and of the imported class stored under the given name, in that order,
deduplicated. -/
def getClassSource (s : CustomTypesState) (className : String) :
    List String :=
  let sources :=
    match mapGet s.localClasses className with
    | some info => insertUnique [] info.filePath
    | none => []
  match mapGet s.importedClasses className with
  | some info => insertUnique sources info.filePath
  | none => sources

/-- One element of the list returned by getFileTypes. -/
structure FileTypeEntry where
  name : String
  isRefinable : Bool
deriving DecidableEq, Repr

/-- CustomTypes.getFileTypes: walk localClasses, typeAliases, typeVars,
protocols and literalTypes in that order, keeping the entries whose
defining file equals the given path; each for..of push loop over a filter
condition is the corresponding filterMap. -/
def getFileTypes (s : CustomTypesState) (filePath : String) :
    List FileTypeEntry :=
  (s.localClasses.filterMap (fun p =>
    if p.2.filePath = filePath then
      some { name := p.1, isRefinable := decide (0 < p.2.baseClasses.length) }
    else none))
  ++ (s.typeAliases.filterMap (fun p =>
    if p.2.filePath = filePath then
      some { name := p.1, isRefinable := false }
    else none))
  ++ (s.typeVars.filterMap (fun p =>
    if p.2.filePath = filePath then
      some { name := p.1, isRefinable := decide (0 < p.2.constraints.length) }
    else none))
  ++ (s.protocols.filterMap (fun p =>
    if p.2.filePath = filePath then
      some { name := p.1, isRefinable := false }
    else none))
  ++ (s.literalTypes.filterMap (fun p =>
    if p.2.filePath = filePath then
      some { name := p.1, isRefinable := false }
    else none))

/-- TypeCache.generateCacheKey: the document URI string, a colon, the key. -/
def generateCacheKey (key uri : String) : String :=
  uri ++ ":" ++ key

/-- TypeCache.getOrCreate: look up (document uri, key); on a hit whose
version stamp equals currentVersion return the stored item list unchanged
(the very reference, with no store); otherwise run the creator, store its
result stamped with currentVersion and owned by the document, and return
it. The creator closes over ambient state in the source; only its produced
item list matters to the cache contract, so it is passed as that list. -/
def getOrCreate (w : World) (key : String) (uri : String)
    (creator : List CompletionItem) : List CompletionItem × World :=
  let cacheKey := generateCacheKey key uri
  match mapGet w.typeCache.cache cacheKey with
  | some cached =>
    if cached.version = w.typeCache.currentVersion then
      (cached.items, w)
    else
      (creator,
        { w with
          typeCache :=
            { w.typeCache with
              cache := mapSet w.typeCache.cache cacheKey
                { items := creator, version := w.typeCache.currentVersion,
                  document := uri } } })
  | none =>
    (creator,
      { w with
        typeCache :=
          { w.typeCache with
            cache := mapSet w.typeCache.cache cacheKey
              { items := creator, version := w.typeCache.currentVersion,
                document := uri } } })

/-- TypeCache.clearDocumentCache: drop every entry owned by the document. -/
def clearDocumentCache (w : World) (uri : String) : World :=
  { w with
    typeCache :=
      { w.typeCache with
        cache := w.typeCache.cache.filter
          (fun p => ¬ (p.2.document = uri)) } }

/-- ParamCompletionProvider.provideCompletionItems, as relevant to the cache
lifecycle. The editor-facing inputs are abstracted to their observed values:
whether the trigger character is the colon, the result of shouldProvideItems
on the current line (pure regex logic over the document text), the parameter
name extracted by getParam (which reads but never writes shared state), and
the cancellation token's isCancellationRequested flag as observed at the
guard. The processTypeHints method (several near-identical revisions exist,
some of which populate the TypeCache through getOrCreate) is passed as the
state transformer it denotes; the body calls it only when a parameter was
found and cancellation has not been observed. -/
def provideCompletionItems (w : World) (triggerIsParamHint : Bool)
    (shouldProvide : Bool) (param : Option String) (cancelRequested : Bool)
    (processTypeHints : World → List CompletionItem × World) :
    Option (List CompletionItem) × World :=
  if ¬ triggerIsParamHint then
    (none, w)
  else if shouldProvide then
    match param with
    | some _ =>
      if ¬ cancelRequested then
        let r := processTypeHints w
        (some r.1, r.2)
      else
        (none, w)
    | none => (none, w)
  else
    (none, w)

mutual

/-- A tree-sitter syntax node: node kind (node.type), covered source text
(node.text) and ordered children (node.children, anonymous token nodes
included). The child sequence is its own inductive so that tree recursion
is structural. -/
inductive TSNode where
  | mk (kind : String) (text : String) (children : TSNodeList)

/-- The ordered child sequence of a syntax node. -/
inductive TSNodeList where
  | nil
  | cons (head : TSNode) (tail : TSNodeList)

end

/-- View of a child sequence as a plain list. -/
def TSNodeList.toList : TSNodeList → List TSNode
  | .nil => []
  | .cons h t => h :: t.toList

/-- Build a child sequence from a plain list. -/
def TSNodeList.ofList : List TSNode → TSNodeList
  | [] => .nil
  | h :: t => .cons h (TSNodeList.ofList t)

/-- Convenience constructor of a node from a plain child list. -/
def TSNode.node (kind text : String) (children : List TSNode) : TSNode :=
  .mk kind text (.ofList children)

/-- The node kind tag (node.type in tree-sitter). -/
def TSNode.kind : TSNode → String
  | .mk k _ _ => k

/-- The source text covered by the node (node.text). -/
def TSNode.text : TSNode → String
  | .mk _ t _ => t

/-- The ordered child list (node.children). -/
def TSNode.children : TSNode → List TSNode
  | .mk _ _ cs => cs.toList

/-- Whether the first list begins with the second (character-wise). -/
def listStartsWith : List Char → List Char → Bool
  | _, [] => true
  | [], _ :: _ => false
  | c :: cs, d :: ds => c == d && listStartsWith cs ds

/-- Character-level worker for JS String.prototype.split with a non-empty
separator: scan left to right, break at every non-overlapping occurrence of
the separator. The first argument is recursion fuel: every step consumes at
least one character, so any fuel exceeding the input length yields the
full, fuel-independent result (jsSplit always supplies such fuel). -/
def splitCharsF : Nat → List Char → List Char → List (List Char)
  | 0, _, _ => [[]]
  | _ + 1, _, [] => [[]]
  | fuel + 1, sep, c :: cs =>
    if sep ≠ [] ∧ listStartsWith (c :: cs) sep = true then
      [] :: splitCharsF fuel sep (cs.drop (sep.length - 1))
    else
      match splitCharsF fuel sep cs with
      | [] => [[c]]
      | chunk :: rest => (c :: chunk) :: rest

/-- JS String.prototype.split for a string separator (the empty separator
splits between every character, as in JS). -/
def jsSplit (s sep : String) : List String :=
  match sep.data with
  | [] => s.data.map (fun c => String.mk [c])
  | _ :: _ =>
    (splitCharsF (s.data.length + 1) sep.data s.data).map
      (fun cs => String.mk cs)

/-- ASCII whitespace recognized by JS String.prototype.trim (the further
Unicode space characters do not occur in the inputs under study). -/
def isJsSpace (c : Char) : Bool :=
  c == ' ' || c == '\t' || c == '\n' || c == '\r' ||
  c == (Char.ofNat 11) || c == (Char.ofNat 12)

/-- JS String.prototype.trim: strip leading and trailing whitespace. -/
def jsTrim (s : String) : String :=
  String.mk
    (((s.data.dropWhile isJsSpace).reverse.dropWhile isJsSpace).reverse)

/-- TypeCategory from typeData/BaseTypes.ts. -/
inductive TypeCategory where
  | Refinable
  | NonRefinable
deriving DecidableEq, Repr

/-- The builtInTypeCategories mapping of typeData/BaseTypes.ts. -/
def builtInTypeCategories : List (String × TypeCategory) :=
  [("bool", TypeCategory.NonRefinable), ("bytes", TypeCategory.NonRefinable),
   ("complex", TypeCategory.NonRefinable), ("dict", TypeCategory.Refinable),
   ("float", TypeCategory.NonRefinable), ("int", TypeCategory.NonRefinable),
   ("list", TypeCategory.Refinable), ("object", TypeCategory.NonRefinable),
   ("set", TypeCategory.Refinable), ("str", TypeCategory.NonRefinable), ("tuple", TypeCategory.Refinable)]

set_option maxHeartbeats 1000000 in
/-- The typingTypeCategories mapping of typeData/BaseTypes.ts. -/
def typingTypeCategories : List (String × TypeCategory) :=
  [("Dict", TypeCategory.Refinable), ("List", TypeCategory.Refinable), ("Set", TypeCategory.Refinable),
   ("Tuple", TypeCategory.Refinable), ("Iterable", TypeCategory.Refinable), ("Iterator", TypeCategory.Refinable),
   ("AsyncIterator", TypeCategory.Refinable), ("AsyncIterable", TypeCategory.Refinable),
   ("Generator", TypeCategory.Refinable), ("AsyncGenerator", TypeCategory.Refinable),
   ("Optional", TypeCategory.Refinable), ("Union", TypeCategory.Refinable), ("Annotated", TypeCategory.Refinable),
   ("Callable", TypeCategory.Refinable), ("Mapping", TypeCategory.Refinable),
   ("MutableMapping", TypeCategory.Refinable), ("Sequence", TypeCategory.Refinable),
   ("MutableSequence", TypeCategory.Refinable), ("AbstractSet", TypeCategory.Refinable),
   ("MutableSet", TypeCategory.Refinable), ("Container", TypeCategory.Refinable),
   ("Collection", TypeCategory.Refinable), ("ItemsView", TypeCategory.Refinable),
   ("KeysView", TypeCategory.Refinable), ("ValuesView", TypeCategory.Refinable),
   ("Awaitable", TypeCategory.Refinable), ("Coroutine", TypeCategory.Refinable), ("IO", TypeCategory.Refinable),
   ("Any", TypeCategory.NonRefinable), ("Never", TypeCategory.NonRefinable),
   ("NoReturn", TypeCategory.NonRefinable), ("ClassVar", TypeCategory.NonRefinable),
   ("Final", TypeCategory.NonRefinable), ("Self", TypeCategory.NonRefinable),
   ("TypeVar", TypeCategory.NonRefinable), ("TypeVarTuple", TypeCategory.NonRefinable),
   ("ParamSpec", TypeCategory.NonRefinable), ("TypeAlias", TypeCategory.NonRefinable),
   ("TypeGuard", TypeCategory.NonRefinable), ("Generic", TypeCategory.NonRefinable),
   ("Protocol", TypeCategory.NonRefinable), ("ChainMap", TypeCategory.NonRefinable),
   ("Counter", TypeCategory.NonRefinable), ("Deque", TypeCategory.NonRefinable),
   ("DefaultDict", TypeCategory.NonRefinable), ("OrderedDict", TypeCategory.NonRefinable),
   ("FrozenSet", TypeCategory.NonRefinable), ("SupportsAbs", TypeCategory.NonRefinable),
   ("SupportsBytes", TypeCategory.NonRefinable), ("SupportsComplex", TypeCategory.NonRefinable),
   ("SupportsFloat", TypeCategory.NonRefinable), ("SupportsIndex", TypeCategory.NonRefinable),
   ("SupportsInt", TypeCategory.NonRefinable), ("SupportsRound", TypeCategory.NonRefinable),
   ("Sized", TypeCategory.NonRefinable), ("Hashable", TypeCategory.NonRefinable),
   ("Reversible", TypeCategory.NonRefinable), ("ByteString", TypeCategory.NonRefinable),
   ("ContextManager", TypeCategory.NonRefinable), ("AsyncContextManager", TypeCategory.NonRefinable),
   ("BinaryIO", TypeCategory.NonRefinable), ("TextIO", TypeCategory.NonRefinable),
   ("Match", TypeCategory.NonRefinable), ("Pattern", TypeCategory.NonRefinable),
   ("AnyStr", TypeCategory.NonRefinable), ("LiteralString", TypeCategory.NonRefinable),
   ("Literal", TypeCategory.NonRefinable), ("Required", TypeCategory.NonRefinable),
   ("NotRequired", TypeCategory.NonRefinable), ("Type", TypeCategory.NonRefinable),
   ("Concatenate", TypeCategory.NonRefinable), ("MappingView", TypeCategory.NonRefinable)]

/-- Category lookup through getBaseType() of typeData/BaseTypes.ts: the
spread of the builtin container and the typing container (disjoint key
sets, so list order is immaterial for lookups). -/
def getBaseTypeCategory (typeName : String) : Option TypeCategory :=
  mapGet (builtInTypeCategories ++ typingTypeCategories) typeName

namespace ASTService

mutual

/-- ASTService.findNodes: pre-order traversal collecting every node that
satisfies the predicate (traverseTree invokes the callback on the node
first, then on the children left to right). -/
def findNodes (p : TSNode → Bool) (n : TSNode) : List TSNode :=
  match n with
  | .mk k t cs =>
    (if p (.mk k t cs) then [TSNode.mk k t cs] else []) ++ findNodesList p cs

/-- Traversal of findNodes over a child sequence. -/
def findNodesList (p : TSNode → Bool) (ns : TSNodeList) : List TSNode :=
  match ns with
  | .nil => []
  | .cons c rest => findNodes p c ++ findNodesList p rest

end

/-- ASTService.findAllImports: every import_statement or
import_from_statement node of the tree, in pre-order. -/
def findAllImports (tree : TSNode) : List TSNode :=
  findNodes
    (fun n =>
      n.kind == "import_statement" || n.kind == "import_from_statement")
    tree

/-- ASTService.getLiteralValues, revision of services/ASTService.ts: find
the first list or tuple child and convert its literal children; string
children contribute their raw source text (node.text, quote characters
included). -/
def getLiteralValues (node : TSNode) : List LitValue :=
  match node.children.find?
      (fun c => c.kind == "list" || c.kind == "tuple") with
  | some literalList =>
    literalList.children.filterMap (fun v =>
      if v.kind == "string" then some (.str v.text)
      else if v.kind == "number" then some (.num v.text)
      else if v.kind == "true" || v.kind == "false" then
        some (.bool (v.kind == "true"))
      else none)
  | none => []

end ASTService

namespace ASTServiceB

/-- ASTService.getLiteralValues, the alternative revision that scans the
direct children of the given node and pushes child.text (a string) for
every string, number, true or false child. -/
def getLiteralValues (node : TSNode) : List LitValue :=
  node.children.filterMap (fun c =>
    if c.kind == "string" || c.kind == "number" || c.kind == "true" ||
        c.kind == "false" then
      some (.str c.text)
    else none)

end ASTServiceB

/-- One element of the result of TypeAnalyzer.analyzeImports (interface
ImportResult); fields absent from a given revision's push keep their
defaults, mirroring undefined object properties. -/
structure ImportResult where
  className : String
  source : String
  aliasName : Option String := none
  isFromImport : Bool := false
  importStatement : Option String := none
deriving DecidableEq, Repr

/-- Result record of TypeAnalyzer.analyzeVariableTypes: one alias entry. -/
structure AliasResult where
  name : String
  originalType : String
deriving DecidableEq, Repr

/-- Result record of TypeAnalyzer.analyzeVariableTypes: one literal-type
entry. -/
structure LiteralResult where
  name : String
  values : List LitValue
deriving DecidableEq, Repr

/-- Result record of TypeAnalyzer.analyzeVariableTypes: one type-variable
entry. -/
structure TypeVarResult where
  name : String
  constraints : List String
deriving DecidableEq, Repr

/-- The triple returned by TypeAnalyzer.analyzeVariableTypes. -/
structure VariableTypesResult where
  aliases : List AliasResult := []
  literals : List LiteralResult := []
  typeVars : List TypeVarResult := []
deriving DecidableEq, Repr

namespace TypeAnalyzer

/-- TypeAnalyzer.isClassName: the regex test for an initial uppercase
letter A through Z. -/
def isClassName (name : String) : Bool :=
  match name.data with
  | [] => false
  | c :: _ => decide ('A' ≤ c ∧ c ≤ 'Z')

/-- TypeAnalyzer.isRefinableBaseType: the name's category in the merged
base-type container is Refinable (an absent name compares unequal). -/
def isRefinableBaseType (typeName : String) : Bool :=
  match getBaseTypeCategory typeName with
  | some c => c == TypeCategory.Refinable
  | none => false

/-- TypeAnalyzer.analyzeTypeVarConstraints: take the argument_list child,
drop its first child (slice(1)), and keep the texts of identifier
children. -/
def analyzeTypeVarConstraints (node : TSNode) : List String :=
  match node.children.find? (fun c => c.kind == "argument_list") with
  | none => []
  | some argList =>
    (argList.children.drop 1).filterMap (fun arg =>
      if arg.kind == "identifier" then some arg.text else none)

/-- TypeAnalyzer.analyzeImportStatement: for every dotted_name child of a
plain import statement, take the last dot-separated segment; if it looks
like a class name, record it. -/
def analyzeImportStatement (node : TSNode) (results : List ImportResult) :
    List ImportResult :=
  node.children.foldl
    (fun acc child =>
      if child.kind == "dotted_name" then
        let className := ((jsSplit child.text ".").getLast?).getD ""
        if isClassName className then
          acc ++
            [{ className := className, source := child.text,
               isFromImport := false,
               importStatement := some ("import " ++ child.text) }]
        else acc
      else acc)
    results

/-- TypeAnalyzer.analyzeFromImportStatement (the revision with the typing
guard): skip the statement entirely when the module (the first dotted_name
child) is typing; otherwise handle an aliased_import child by splitting its
source text on every occurrence of the character pair a-s (JS
String.prototype.split) and trimming, or handle the remaining dotted_name
children (reference inequality against the module node keeps every
dotted_name child except the first). -/
def analyzeFromImportStatement (node : TSNode)
    (results : List ImportResult) : List ImportResult :=
  match node.children.find? (fun c => c.kind == "dotted_name") with
  | none => results
  | some moduleNode =>
    if moduleNode.text = "typing" then results
    else
      let modulePath := moduleNode.text
      match node.children.find? (fun c => c.kind == "aliased_import") with
      | some aliasedImport =>
        let parts := (jsSplit aliasedImport.text "as").map jsTrim
        let sourceName := parts.headD ""
        let aliasName := parts[1]?
        if isClassName sourceName then
          results ++
            [{ className := sourceName, source := modulePath,
               aliasName := aliasName, isFromImport := true,
               importStatement := some
                 ("from " ++ modulePath ++ " import " ++ sourceName ++
                  " as " ++ aliasName.getD "undefined") }]
        else results
      | none =>
        let moduleIdx :=
          node.children.findIdx (fun c => c.kind == "dotted_name")
        (node.children.enum.filter
            (fun p => p.2.kind == "dotted_name" && p.1 ≠ moduleIdx)).foldl
          (fun acc p =>
            if isClassName p.2.text then
              acc ++
                [{ className := p.2.text, source := modulePath,
                   isFromImport := true,
                   importStatement := some
                     ("from " ++ modulePath ++ " import " ++ p.2.text) }]
            else acc)
          results

/-- TypeAnalyzer.analyzeImports (the per-statement-dispatch revision):
dispatch every import node of the tree to the matching statement
analyzer. -/
def analyzeImports (tree : TSNode) : List ImportResult :=
  (ASTService.findAllImports tree).foldl
    (fun acc node =>
      if node.kind == "import_statement" then
        analyzeImportStatement node acc
      else if node.kind == "import_from_statement" then
        analyzeFromImportStatement node acc
      else acc)
    []

/-- TypeAnalyzer.analyzeVariableTypes, paired with the getLiteralValues
revision of services/ASTService.ts: for every assignment node take the
identifier child as the name and the first call or subscript child as the
right side; dispatch on the right side's identifier child to the Literal,
TypeVar or refinable-alias handling. -/
def analyzeVariableTypes (tree : TSNode) : VariableTypesResult :=
  (ASTService.findNodes (fun n => n.kind == "assignment") tree).foldl
    (fun acc node =>
      match node.children.find? (fun c => c.kind == "identifier") with
      | none => acc
      | some nameNode =>
        match node.children.find?
            (fun c => c.kind == "call" || c.kind == "subscript") with
        | none => acc
        | some rightSide =>
          match rightSide.children.find?
              (fun c => c.kind == "identifier") with
          | none => acc
          | some baseTypeNode =>
            if baseTypeNode.text = "Literal" then
              let values := ASTService.getLiteralValues rightSide
              if 0 < values.length then
                { acc with
                  literals := acc.literals ++
                    [{ name := nameNode.text, values := values }] }
              else acc
            else if baseTypeNode.text = "TypeVar" then
              { acc with
                typeVars := acc.typeVars ++
                  [{ name := nameNode.text,
                     constraints := analyzeTypeVarConstraints rightSide }] }
            else if isRefinableBaseType baseTypeNode.text then
              { acc with
                aliases := acc.aliases ++
                  [{ name := nameNode.text,
                     originalType := rightSide.text }] }
            else acc)
    {}

end TypeAnalyzer

namespace TypeAnalyzerB

/-- TypeAnalyzer.analyzeVariableTypes linked against the alternative
direct-children revision of getLiteralValues; the analyzer body is the
revision of TypeAnalyzer.analyzeVariableTypes above. -/
def analyzeVariableTypes (tree : TSNode) : VariableTypesResult :=
  (ASTService.findNodes (fun n => n.kind == "assignment") tree).foldl
    (fun acc node =>
      match node.children.find? (fun c => c.kind == "identifier") with
      | none => acc
      | some nameNode =>
        match node.children.find?
            (fun c => c.kind == "call" || c.kind == "subscript") with
        | none => acc
        | some rightSide =>
          match rightSide.children.find?
              (fun c => c.kind == "identifier") with
          | none => acc
          | some baseTypeNode =>
            if baseTypeNode.text = "Literal" then
              let values := ASTServiceB.getLiteralValues rightSide
              if 0 < values.length then
                { acc with
                  literals := acc.literals ++
                    [{ name := nameNode.text, values := values }] }
              else acc
            else if baseTypeNode.text = "TypeVar" then
              { acc with
                typeVars := acc.typeVars ++
                  [{ name := nameNode.text,
                     constraints :=
                       TypeAnalyzer.analyzeTypeVarConstraints rightSide }] }
            else if TypeAnalyzer.isRefinableBaseType baseTypeNode.text then
              { acc with
                aliases := acc.aliases ++
                  [{ name := nameNode.text,
                     originalType := rightSide.text }] }
            else acc)
    {}

end TypeAnalyzerB

namespace TypeAnalyzerSvc

/-- services/TypeAnalyzer.ts isClassName. -/
def isClassName (name : String) : Bool :=
  TypeAnalyzer.isClassName name

/-- services/TypeAnalyzer.ts isTypingRelated: module is one of the typing
modules, or one of the further type-related modules. -/
def isTypingRelated (name modulePath : String) : Bool :=
  let _ := name
  if ["typing", "collections.abc", "types"].contains modulePath then true
  else ["abc", "dataclasses", "enum"].contains modulePath

/-- services/TypeAnalyzer.ts analyzeImports: this revision handles only
import_from_statement nodes and reads the names out of an import_list
child. -/
def analyzeImports (tree : TSNode) : List ImportResult :=
  (ASTService.findAllImports tree).foldl
    (fun acc node =>
      if node.kind == "import_from_statement" then
        match node.children.find? (fun c => c.kind == "dotted_name"),
            node.children.find? (fun c => c.kind == "import_list") with
        | some moduleNode, some importList =>
          importList.children.foldl
            (fun a item =>
              if item.kind == "identifier" then
                if isClassName item.text ||
                    isTypingRelated item.text moduleNode.text then
                  a ++ [{ className := item.text,
                          source := moduleNode.text }]
                else a
              else a)
            acc
        | _, _ => acc
      else acc)
    []

end TypeAnalyzerSvc

/-- The tree-sitter-python parse of the line from typing import List: an
import_from_statement whose children are the from keyword token, the module
dotted_name, the import keyword token, and the imported dotted_name. -/
def typingImportNode : TSNode :=
  .node "import_from_statement" "from typing import List"
    [.node "from" "from" [],
     .node "dotted_name" "typing" [],
     .node "import" "import" [],
     .node "dotted_name" "List" []]

/-- A module tree containing only the typing from-import. -/
def typingTree : TSNode :=
  .node "module" "from typing import List" [typingImportNode]

/-- The tree-sitter-python parse of from m import Base as Alias; the
aliased_import child covers the text Base as Alias. -/
def aliasedAsNode : TSNode :=
  .node "import_from_statement" "from m import Base as Alias"
    [.node "from" "from" [],
     .node "dotted_name" "m" [],
     .node "import" "import" [],
     .node "aliased_import" "Base as Alias"
       [.node "dotted_name" "Base" [],
        .node "as" "as" [],
        .node "identifier" "Alias" []]]

/-- The tree-sitter-python parse of from m import Orig as Al (neither name
contains the character pair a-s). -/
def aliasedOkNode : TSNode :=
  .node "import_from_statement" "from m import Orig as Al"
    [.node "from" "from" [],
     .node "dotted_name" "m" [],
     .node "import" "import" [],
     .node "aliased_import" "Orig as Al"
       [.node "dotted_name" "Orig" [],
        .node "as" "as" [],
        .node "identifier" "Al" []]]

/-- The tree-sitter-python parse of the line Mode = Literal["a", "b"]: an
assignment whose right side is a subscript node; the subscript's children
are the Literal identifier, bracket and comma tokens, and the two string
nodes, whose text includes the quote characters. -/
def modeTree : TSNode :=
  .node "module" "Mode = Literal[\"a\", \"b\"]"
    [.node "expression_statement" "Mode = Literal[\"a\", \"b\"]"
      [.node "assignment" "Mode = Literal[\"a\", \"b\"]"
        [.node "identifier" "Mode" [],
         .node "=" "=" [],
         .node "subscript" "Literal[\"a\", \"b\"]"
           [.node "identifier" "Literal" [],
            .node "[" "[" [],
            .node "string" "\"a\""
              [.node "string_start" "\"" [], .node "string_content" "a" [],
               .node "string_end" "\"" []],
            .node "," "," [],
            .node "string" "\"b\""
              [.node "string_start" "\"" [], .node "string_content" "b" [],
               .node "string_end" "\"" []],
            .node "]" "]" []]]]]


/-- Unfolding lemma for mapGet on a cons cell. -/
theorem mapGet_cons {α : Type} (hd : String × α) (tl : List (String × α))
    (k : String) :
    mapGet (hd :: tl) k = if hd.1 == k then some hd.2 else mapGet tl k := by
  cases hB : (hd.1 == k) with
  | true => simp [mapGet, List.find?_cons_of_pos, hB]
  | false => simp [mapGet, List.find?_cons_of_neg, hB]

theorem mapGet_map_replace_ne {α : Type} (m : List (String × α))
    (k k' : String) (v : α) (h : k' ≠ k) :
    mapGet (m.map fun p => if p.1 == k then (k, v) else p) k' = mapGet m k' := by
  induction m with
  | nil => rfl
  | cons hd tl ih =>
    cases hB : (hd.1 == k) with
    | true =>
      have h1 : hd.1 = k := by simpa using hB
      simp only [List.map_cons, hB, if_true]
      rw [mapGet_cons, mapGet_cons]
      have h2 : (k == k') = false := by simp [Ne.symm h]
      have h3 : (hd.1 == k') = false := by simp [h1, Ne.symm h]
      simp only [h2, h3, Bool.false_eq_true, if_false]
      simpa using ih
    | false =>
      simp only [List.map_cons, hB, Bool.false_eq_true, if_false]
      rw [mapGet_cons, mapGet_cons]
      cases hC : (hd.1 == k') with
      | true => simp [hC]
      | false =>
        simp only [hC, Bool.false_eq_true, if_false]
        simpa using ih

theorem mapGet_map_replace_self {α : Type} (m : List (String × α))
    (k : String) (v : α) (hany : m.any (fun p => p.1 == k) = true) :
    mapGet (m.map fun p => if p.1 == k then (k, v) else p) k = some v := by
  induction m with
  | nil => simp at hany
  | cons hd tl ih =>
    cases hB : (hd.1 == k) with
    | true =>
      simp only [List.map_cons, hB, if_true]
      rw [mapGet_cons]
      simp
    | false =>
      simp only [List.any_cons, hB, Bool.false_or] at hany
      simp only [List.map_cons, hB, Bool.false_eq_true, if_false]
      rw [mapGet_cons]
      simp only [hB, Bool.false_eq_true, if_false]
      simpa using ih hany

theorem mapGet_append_right {α : Type} (m : List (String × α))
    (tail : List (String × α)) (k : String)
    (hnone : mapGet m k = none) :
    mapGet (m ++ tail) k = mapGet tail k := by
  unfold mapGet at *
  rw [List.find?_append]
  cases hF : m.find? (fun p => p.1 == k) with
  | none => simp [hF]
  | some p => simp [hF] at hnone

theorem mapGet_none_of_not_any {α : Type} (m : List (String × α))
    (k : String) (hany : ¬ (m.any (fun p => p.1 == k) = true)) :
    mapGet m k = none := by
  unfold mapGet
  cases hF : m.find? (fun p => p.1 == k) with
  | none => rfl
  | some p =>
    have := List.find?_some hF
    exact absurd (List.any_eq_true.mpr ⟨p, List.mem_of_find?_eq_some hF, this⟩) hany

theorem mapGet_mapSet_self {α : Type} (m : List (String × α)) (k : String)
    (v : α) : mapGet (mapSet m k v) k = some v := by
  unfold mapSet
  split
  case isTrue hany => exact mapGet_map_replace_self m k v hany
  case isFalse hany =>
    rw [mapGet_append_right m _ k (mapGet_none_of_not_any m k hany)]
    simp [mapGet]

theorem mapGet_mapSet_ne {α : Type} (m : List (String × α)) (k k' : String)
    (v : α) (h : k' ≠ k) : mapGet (mapSet m k v) k' = mapGet m k' := by
  unfold mapSet
  split
  case isTrue hany => exact mapGet_map_replace_ne m k k' v h
  case isFalse hany =>
    unfold mapGet
    rw [List.find?_append]
    cases hF : m.find? (fun p => p.1 == k') with
    | none =>
      have hne : (k == k') = false := by simp [Ne.symm h]
      simp [hF, List.find?, hne]
    | some p => simp [hF]

/-- C2: every successful mutating registry operation (each add of any
category, and each bulk remove) fires the change notification exactly once,
and therefore increases the TypeCache registry version counter by exactly 1;
in particular removeAllFileData performs a single version increment and a
single change notification for the whole bulk removal, not one per removed
entry. -/
theorem spec_c2 (w : World) (nm fp ot : String) (aliasName : Option String)
    (bs cs : List String) (ms : List (String × ProtocolMethodInfo))
    (vs : List LitValue) :
    (∀ w', addLocalClass w nm fp bs = Except.ok w' →
      w'.typeCache.currentVersion = w.typeCache.currentVersion + 1 ∧
      w'.types.notifyCount = w.types.notifyCount + 1) ∧
    ((addImportedClass w nm fp aliasName).typeCache.currentVersion =
        w.typeCache.currentVersion + 1 ∧
      (addImportedClass w nm fp aliasName).types.notifyCount =
        w.types.notifyCount + 1) ∧
    ((addTypeAlias w nm ot fp).typeCache.currentVersion =
        w.typeCache.currentVersion + 1 ∧
      (addTypeAlias w nm ot fp).types.notifyCount =
        w.types.notifyCount + 1) ∧
    ((addTypeVar w nm cs fp).typeCache.currentVersion =
        w.typeCache.currentVersion + 1 ∧
      (addTypeVar w nm cs fp).types.notifyCount = w.types.notifyCount + 1) ∧
    ((addProtocol w nm ms fp).typeCache.currentVersion =
        w.typeCache.currentVersion + 1 ∧
      (addProtocol w nm ms fp).types.notifyCount =
        w.types.notifyCount + 1) ∧
    ((addLiteralType w nm vs fp).typeCache.currentVersion =
        w.typeCache.currentVersion + 1 ∧
      (addLiteralType w nm vs fp).types.notifyCount =
        w.types.notifyCount + 1) ∧
    ((removeFileClasses w fp).typeCache.currentVersion =
        w.typeCache.currentVersion + 1 ∧
      (removeFileClasses w fp).types.notifyCount =
        w.types.notifyCount + 1) ∧
    ((removeAllFileData w fp).typeCache.currentVersion =
        w.typeCache.currentVersion + 1 ∧
      (removeAllFileData w fp).types.notifyCount =
        w.types.notifyCount + 1) := by
  refine ⟨?_, ⟨rfl, rfl⟩, ⟨rfl, rfl⟩, ⟨rfl, rfl⟩, ⟨rfl, rfl⟩, ⟨rfl, rfl⟩,
    ⟨rfl, rfl⟩, ⟨rfl, rfl⟩⟩
  intro w' h
  unfold addLocalClass at h
  split at h
  · exact absurd h (by simp)
  · cases h
    exact ⟨rfl, rfl⟩

/-- Witness for C2 at a concrete successful addLocalClass call on the
initial world. -/
theorem spec_c2_witness :
    ∃ w', addLocalClass {} "A" "f.py" [] = Except.ok w' ∧
      w'.typeCache.currentVersion = 1 ∧ w'.types.notifyCount = 1 := by
  refine ⟨_, rfl, ?_⟩
  exact (spec_c2 {} "A" "f.py" "t" none [] [] [] []).1 _ rfl

/-- C3: getOrCreate returns the stored item list unchanged (and writes
nothing) when the entry for (document, key) carries the current registry
version, and otherwise returns the producer's result after storing it
stamped with the current version. -/
theorem spec_c3 (w : World) (key uri : String)
    (creator : List CompletionItem) :
    (∀ e, mapGet w.typeCache.cache (generateCacheKey key uri) = some e →
      e.version = w.typeCache.currentVersion →
      getOrCreate w key uri creator = (e.items, w)) ∧
    ((∀ e, mapGet w.typeCache.cache (generateCacheKey key uri) = some e →
        e.version ≠ w.typeCache.currentVersion) →
      getOrCreate w key uri creator =
        (creator,
          { w with
            typeCache :=
              { w.typeCache with
                cache := mapSet w.typeCache.cache (generateCacheKey key uri)
                  { items := creator,
                    version := w.typeCache.currentVersion,
                    document := uri } } })) := by
  constructor
  · intro e he hv
    unfold getOrCreate
    simp only [he, hv, if_true]
  · intro hmiss
    unfold getOrCreate
    cases hF : mapGet w.typeCache.cache (generateCacheKey key uri) with
    | none => simp only [hF]
    | some e =>
      simp only [hF]
      rw [if_neg (hmiss e hF)]

/-- Witness for C3: a version-matching hit returns the stored list and the
unchanged world, and a miss on the initial world stores and returns the
produced list. -/
theorem spec_c3_witness :
    getOrCreate
      { typeCache :=
        { cache :=
            [("file:///d.py:builtin",
              { items := [{ label := " int" }], version := 0,
                document := "file:///d.py" })],
          currentVersion := 0 } }
      "builtin" "file:///d.py" [] =
      ([{ label := " int" }],
        { typeCache :=
          { cache :=
              [("file:///d.py:builtin",
                { items := [{ label := " int" }], version := 0,
                  document := "file:///d.py" })],
            currentVersion := 0 } }) ∧
    getOrCreate {} "builtin" "file:///d.py" [{ label := " str" }] =
      ([{ label := " str" }],
        { typeCache :=
          { cache :=
              [("file:///d.py:builtin",
                { items := [{ label := " str" }], version := 0,
                  document := "file:///d.py" })],
            currentVersion := 0 } }) := by
  constructor
  · exact (spec_c3 _ "builtin" "file:///d.py" []).1
      { items := [{ label := " int" }], version := 0,
        document := "file:///d.py" } rfl rfl
  · exact (spec_c3 {} "builtin" "file:///d.py" [{ label := " str" }]).2
      (fun e he => by simp [mapGet] at he)

/-- C9: when the cancellation token is observed as canceled at the guard,
provideCompletionItems returns null without invoking processTypeHints, so
the shared state — in particular the result cache — is left exactly as it
was and no entry produced by the abandoned computation is stored, for every
possible processTypeHints behavior. -/
theorem spec_c9 (w : World) (trig sp : Bool) (param : Option String)
    (proc : World → List CompletionItem × World) :
    (provideCompletionItems w trig sp param true proc).2 = w ∧
    (provideCompletionItems w trig sp param true proc).1 = none := by
  unfold provideCompletionItems
  rcases trig <;> rcases sp <;> rcases param <;> simp

/-- C6 counterexample: addImportedClass performs no input validation; the
call with empty class name and empty file path succeeds and mutates the
registry (it inserts an entry under the empty key) instead of failing with
an invalid-input error and leaving the registry unchanged. -/
theorem spec_c6_counterexample :
    (addImportedClass {} "" "" none).types.importedClasses =
      [("", { originalName := "", filePath := "" })] ∧
    (addImportedClass {} "" "" none).types ≠ ({} : World).types := by
  exact ⟨rfl, by decide⟩

/-- C6 amended: only addLocalClass validates its input; it fails with a
synchronously thrown invalid-input error exactly when the class name or the
file path is empty, the throw precedes any mutation so the caller's
registry state is unchanged, and the error carries the fixed
invalid-input message. -/
theorem spec_c6 (w : World) (nm fp : String) (bs : List String) :
    ((∃ e, addLocalClass w nm fp bs = Except.error e) ↔
      (nm = "" ∨ fp = "")) ∧
    (∀ e, addLocalClass w nm fp bs = Except.error e →
      e = "类名和文件路径不能为空") := by
  constructor
  · constructor
    · intro ⟨e, he⟩
      unfold addLocalClass at he
      by_cases h : nm = "" ∨ fp = ""
      · exact h
      · simp only [h, if_false] at he
        exact absurd he (by simp)
    · intro h
      unfold addLocalClass
      simp only [h, if_true]
      exact ⟨_, rfl⟩
  · intro e he
    unfold addLocalClass at he
    by_cases h : nm = "" ∨ fp = ""
    · simp only [h, if_true, Except.error.injEq] at he
      exact he.symm
    · simp only [h, if_false] at he
      exact absurd he (by simp)

/-- Witness for C6 amended: the empty-name insert fails with the
invalid-input message. -/
theorem spec_c6_witness :
    ∃ e, addLocalClass {} "" "f.py" [] = Except.error e ∧
      e = "类名和文件路径不能为空" := by
  obtain ⟨e, he⟩ := (spec_c6 {} "" "f.py" []).1.mpr (Or.inl rfl)
  exact ⟨e, he, (spec_c6 {} "" "f.py" []).2 e he⟩

/-- getClassSource when the name resolves to exactly one local class and
no imported class. -/
theorem getClassSource_local_only (s : CustomTypesState) (nm fp : String)
    (bs : List String)
    (hloc : mapGet s.localClasses nm =
      some { filePath := fp, baseClasses := bs })
    (himp : mapGet s.importedClasses nm = none) :
    getClassSource s nm = [fp] := by
  unfold getClassSource
  rw [hloc, himp]
  simp [insertUnique]

/-- C7 counterexample: after inserting local class N from file A.py and
then local class N from file B.py, getClassSource reports only B.py — the
second insert overwrote the first because the category map is keyed by the
class name alone, so both matches are not surfaced. -/
theorem spec_c7_counterexample :
    ((addLocalClass {} "N" "A.py" []).bind
        (fun w1 => addLocalClass w1 "N" "B.py" [])).map
      (fun w2 => getClassSource w2.types "N") = Except.ok ["B.py"] := by
  rfl

/-- C7 amended: inserting a local class named N from file B after one named
N from file A replaces the earlier entry (upsert keyed by name within the
category), so the local-class map afterwards holds the file-B record under
N and, when no same-named imported class exists, getClassSource reports only
B; multiple defining files for the same name within one category are not
surfaced. -/
theorem spec_c7 (w w1 w2 : World) (nm fA fB : String)
    (bA bB : List String) :
    addLocalClass w nm fA bA = Except.ok w1 →
    addLocalClass w1 nm fB bB = Except.ok w2 →
    mapGet w2.types.localClasses nm =
      some { filePath := fB, baseClasses := bB } ∧
    (mapGet w2.types.importedClasses nm = none →
      getClassSource w2.types nm = [fB]) := by
  intro h1 h2
  unfold addLocalClass at h1 h2
  split at h1
  · exact absurd h1 (by simp)
  · split at h2
    · exact absurd h2 (by simp)
    · cases h1
      cases h2
      constructor
      · exact mapGet_mapSet_self _ nm _
      · intro hnone
        exact getClassSource_local_only _ nm fB bB
          (mapGet_mapSet_self _ nm _) hnone

/-- Witness for C7 amended at concrete states. -/
theorem spec_c7_witness :
    ∃ w1 w2, addLocalClass {} "N" "A.py" [] = Except.ok w1 ∧
      addLocalClass w1 "N" "B.py" [] = Except.ok w2 ∧
      mapGet w2.types.localClasses "N" =
        some { filePath := "B.py", baseClasses := [] } ∧
      getClassSource w2.types "N" = ["B.py"] := by
  refine ⟨_, _, rfl, rfl, ?_⟩
  have h := spec_c7 {} _ _ "N" "A.py" "B.py" [] [] rfl rfl
  exact ⟨h.1, h.2 rfl⟩

/-- C1 counterexample: after registering the imported class X for f.py, the
importedClasses map holds the entry, yet getFileTypes for f.py returns the
empty list — getFileTypes never projects the ImportedClass category, so the
claimed entry with isRefinable true for an ImportedClass is absent. -/
theorem spec_c1_counterexample :
    mapGet (addImportedClass {} "X" "f.py" none).types.importedClasses
      "X" = some { originalName := "X", filePath := "f.py" } ∧
    getFileTypes (addImportedClass {} "X" "f.py" none).types "f.py" = [] ∧
    ({ name := "X", isRefinable := true } : FileTypeEntry) ∉
      getFileTypes (addImportedClass {} "X" "f.py" none).types "f.py" := by
  refine ⟨rfl, rfl, ?_⟩
  intro h
  simp [getFileTypes, addImportedClass, notifyTypesChanged, updateTypeStats,
    mapGet, mapSet] at h

/-- C1 amended: for every file path, getFileTypes returns one entry with
name and isRefinable for each symbol of five of the six categories — local
classes, type aliases, type variables, protocols and literal types — whose
defining file equals the path (imported classes are not projected at all);
isRefinable is true for a LocalClass with at least one base class, true for
a TypeVariable with at least one constraint, and false for every TypeAlias,
Protocol and LiteralType. -/
theorem spec_c1 (s : CustomTypesState) (p n : String) (r : Bool) :
    (({ name := n, isRefinable := r } : FileTypeEntry) ∈ getFileTypes s p) ↔
      ((∃ info, (n, info) ∈ s.localClasses ∧ info.filePath = p ∧
          r = decide (0 < info.baseClasses.length)) ∨
       (∃ info, (n, info) ∈ s.typeAliases ∧ info.filePath = p ∧
          r = false) ∨
       (∃ info, (n, info) ∈ s.typeVars ∧ info.filePath = p ∧
          r = decide (0 < info.constraints.length)) ∨
       (∃ info, (n, info) ∈ s.protocols ∧ info.filePath = p ∧
          r = false) ∨
       (∃ info, (n, info) ∈ s.literalTypes ∧ info.filePath = p ∧
          r = false)) := by
  unfold getFileTypes
  simp only [List.mem_append, List.mem_filterMap,
    Option.ite_none_right_eq_some, Option.some.injEq, FileTypeEntry.mk.injEq]
  constructor
  · rintro ((((⟨⟨a, info⟩, hm, hfp, hn, hr⟩ | ⟨⟨a, info⟩, hm, hfp, hn, hr⟩) |
        ⟨⟨a, info⟩, hm, hfp, hn, hr⟩) | ⟨⟨a, info⟩, hm, hfp, hn, hr⟩) |
        ⟨⟨a, info⟩, hm, hfp, hn, hr⟩)
    · exact Or.inl ⟨info, hn ▸ hm, hfp, hr.symm⟩
    · exact Or.inr (Or.inl ⟨info, hn ▸ hm, hfp, hr.symm⟩)
    · exact Or.inr (Or.inr (Or.inl ⟨info, hn ▸ hm, hfp, hr.symm⟩))
    · exact Or.inr (Or.inr (Or.inr (Or.inl ⟨info, hn ▸ hm, hfp, hr.symm⟩)))
    · exact Or.inr (Or.inr (Or.inr (Or.inr ⟨info, hn ▸ hm, hfp, hr.symm⟩)))
  · rintro (⟨info, hm, hfp, hr⟩ | ⟨info, hm, hfp, hr⟩ | ⟨info, hm, hfp, hr⟩ |
        ⟨info, hm, hfp, hr⟩ | ⟨info, hm, hfp, hr⟩)
    · exact Or.inl (Or.inl (Or.inl (Or.inl ⟨(n, info), hm, hfp, rfl,
        hr.symm⟩)))
    · exact Or.inl (Or.inl (Or.inl (Or.inr ⟨(n, info), hm, hfp, rfl,
        hr.symm⟩)))
    · exact Or.inl (Or.inl (Or.inr ⟨(n, info), hm, hfp, rfl, hr.symm⟩))
    · exact Or.inl (Or.inr ⟨(n, info), hm, hfp, rfl, hr.symm⟩)
    · exact Or.inr ⟨(n, info), hm, hfp, rfl, hr.symm⟩

/-- C4: removeAllFileData for file a removes no symbol whose defining file
differs from a; in every one of the six categories, every entry whose file
is not a is present after the call exactly as before it. -/
theorem spec_c4 (w : World) (a n : String) :
    (∀ i : LocalClassInfo, i.filePath ≠ a →
      ((n, i) ∈ (removeAllFileData w a).types.localClasses ↔
        (n, i) ∈ w.types.localClasses)) ∧
    (∀ i : ImportedClassInfo, i.filePath ≠ a →
      ((n, i) ∈ (removeAllFileData w a).types.importedClasses ↔
        (n, i) ∈ w.types.importedClasses)) ∧
    (∀ i : TypeAliasInfo, i.filePath ≠ a →
      ((n, i) ∈ (removeAllFileData w a).types.typeAliases ↔
        (n, i) ∈ w.types.typeAliases)) ∧
    (∀ i : TypeVarInfo, i.filePath ≠ a →
      ((n, i) ∈ (removeAllFileData w a).types.typeVars ↔
        (n, i) ∈ w.types.typeVars)) ∧
    (∀ i : ProtocolInfo, i.filePath ≠ a →
      ((n, i) ∈ (removeAllFileData w a).types.protocols ↔
        (n, i) ∈ w.types.protocols)) ∧
    (∀ i : LiteralTypeInfo, i.filePath ≠ a →
      ((n, i) ∈ (removeAllFileData w a).types.literalTypes ↔
        (n, i) ∈ w.types.literalTypes)) := by
  refine ⟨fun i hi => ?_, fun i hi => ?_, fun i hi => ?_, fun i hi => ?_,
    fun i hi => ?_, fun i hi => ?_⟩ <;>
    simp [removeAllFileData, notifyTypesChanged, resetTypeStats,
      removeFromMap, List.mem_filter, hi]

/-- Witness for C4: one entry per category defined in b.py survives
removeAllFileData for a.py. -/
theorem spec_c4_witness :
    (("C", LocalClassInfo.mk "b.py" ["Base"]) ∈
      (removeAllFileData
        ⟨⟨[("C", ⟨"b.py", ["Base"]⟩)], [("I", ⟨"I", "b.py"⟩)],
          [], [], [], [], [], 0⟩, ⟨[], 0⟩⟩
        "a.py").types.localClasses) ∧
    (("I", ImportedClassInfo.mk "I" "b.py") ∈
      (removeAllFileData
        ⟨⟨[("C", ⟨"b.py", ["Base"]⟩)], [("I", ⟨"I", "b.py"⟩)],
          [], [], [], [], [], 0⟩, ⟨[], 0⟩⟩
        "a.py").types.importedClasses) := by
  constructor
  · exact ((spec_c4 _ "a.py" "C").1 (LocalClassInfo.mk "b.py" ["Base"])
      (by decide)).mpr (by simp)
  · exact ((spec_c4 _ "a.py" "I").2.1 (ImportedClassInfo.mk "I" "b.py")
      (by decide)).mpr (by simp)

/-- C5: for every from-import statement node whose module (the first
dotted_name child) is the typing module, analyzeFromImportStatement adds no
result, so no custom ImportedClass entry is created for the imported name;
concretely, both analyzer revisions produce no import result at all for the
tree of the line from typing import List. -/
theorem spec_c5 :
    (∀ (node : TSNode) (results : List ImportResult) (m : TSNode),
      node.children.find? (fun c => c.kind == "dotted_name") = some m →
      m.text = "typing" →
      TypeAnalyzer.analyzeFromImportStatement node results = results) ∧
    TypeAnalyzer.analyzeImports typingTree = [] ∧
    TypeAnalyzerSvc.analyzeImports typingTree = [] := by
  refine ⟨?_, rfl, rfl⟩
  intro node results m hm htext
  unfold TypeAnalyzer.analyzeFromImportStatement
  rw [hm]
  simp [htext]

/-- Witness for C5 at the concrete typing from-import node. -/
theorem spec_c5_witness :
    TypeAnalyzer.analyzeFromImportStatement typingImportNode [] = [] := by
  exact spec_c5.1 typingImportNode []
    (TSNode.node "dotted_name" "typing" []) rfl rfl

/-- C8 counterexample: for the tree of Mode = Literal["a", "b"], neither
revision of the literal-value extraction yields a LiteralType named Mode
with value list ["a", "b"]: the revision that looks for a list or tuple
child of the subscript finds none and produces no LiteralType at all, and
the direct-children revision stores the string texts with their quote
characters. -/
theorem spec_c8_counterexample :
    (¬ ∃ l ∈ (TypeAnalyzer.analyzeVariableTypes modeTree).literals,
      l.name = "Mode" ∧ l.values = [LitValue.str "a", LitValue.str "b"]) ∧
    (¬ ∃ l ∈ (TypeAnalyzerB.analyzeVariableTypes modeTree).literals,
      l.name = "Mode" ∧ l.values = [LitValue.str "a", LitValue.str "b"]) := by
  constructor
  · intro ⟨l, hl, _⟩
    rw [show (TypeAnalyzer.analyzeVariableTypes modeTree).literals = []
      from rfl] at hl
    exact absurd hl (List.not_mem_nil l)
  · intro ⟨l, hl, _, hvals⟩
    rw [show (TypeAnalyzerB.analyzeVariableTypes modeTree).literals =
      [{ name := "Mode",
         values := [LitValue.str "\"a\"", LitValue.str "\"b\""] }]
      from rfl] at hl
    rw [List.mem_singleton] at hl
    subst hl
    exact absurd hvals (by decide)

/-- C8 amended: for input Mode = Literal["a", "b"], the analyzer paired
with the services/ASTService.ts revision of getLiteralValues (which looks
for a list or tuple child, absent under a subscript node) produces no
LiteralType at all, while the analyzer paired with the direct-children
revision produces the LiteralType Mode whose values are the string nodes'
raw source texts including the surrounding quote characters, in source
order. -/
theorem spec_c8 :
    (TypeAnalyzer.analyzeVariableTypes modeTree).literals = [] ∧
    (TypeAnalyzerB.analyzeVariableTypes modeTree).literals =
      [{ name := "Mode",
         values := [LitValue.str "\"a\"", LitValue.str "\"b\""] }] := by
  exact ⟨rfl, rfl⟩

/-- C10 counterexample: for the aliased from-import from m import Base as
Alias, the analyzer splits the aliased-import text on every occurrence of
the character pair a-s, yielding original name B and alias e; registry
insertion therefore stores the single entry under key e with originalName
B — not an entry keyed by the alias Alias with originalName Base. -/
theorem spec_c10_counterexample :
    TypeAnalyzer.analyzeFromImportStatement aliasedAsNode [] =
      [{ className := "B", source := "m", aliasName := some "e",
         isFromImport := true,
         importStatement := some "from m import B as e" }] ∧
    (addImportedClass {} "B" "f.py" (some "e")).types.importedClasses =
      [("e", { originalName := "B", filePath := "f.py" })] ∧
    mapGet (addImportedClass {} "B" "f.py"
      (some "e")).types.importedClasses "Alias" = none ∧
    mapGet (addImportedClass {} "B" "f.py"
      (some "e")).types.importedClasses "Base" = none := by
  exact ⟨rfl, rfl, rfl, rfl⟩

/-- C10 amended: for every aliased from-import of a class-like name in
which the character pair a-s occurs only as the import keyword — that is,
splitting the aliased-import text on a-s and trimming yields exactly the
original name and the alias — the analyzer emits one result carrying the
original name and the alias, and registry insertion stores exactly one
imported-class entry, keyed by the (non-empty) alias, with originalName
equal to the original name; the original name itself does not become a key
of the imported-class map from that insert (when it differs from the
alias). -/
theorem spec_c10 (node : TSNode) (results : List ImportResult)
    (m ai : TSNode) (orig al : String) (w : World) (fp : String)
    (hm : node.children.find? (fun c => c.kind == "dotted_name") = some m)
    (hmod : ¬ m.text = "typing")
    (hai : node.children.find?
      (fun c => c.kind == "aliased_import") = some ai)
    (hsplit : (jsSplit ai.text "as").map jsTrim = [orig, al])
    (hclass : TypeAnalyzer.isClassName orig = true)
    (hempty : ¬ al = "") :
    TypeAnalyzer.analyzeFromImportStatement node results =
      results ++
        [{ className := orig, source := m.text, aliasName := some al,
           isFromImport := true,
           importStatement := some
             ("from " ++ m.text ++ " import " ++ orig ++ " as " ++ al) }] ∧
    (addImportedClass w orig fp (some al)).types.importedClasses =
      mapSet w.types.importedClasses al
        { originalName := orig, filePath := fp } ∧
    (¬ orig = al →
      mapGet (addImportedClass w orig fp (some al)).types.importedClasses
        orig = mapGet w.types.importedClasses orig) := by
  refine ⟨?_, ?_, ?_⟩
  · unfold TypeAnalyzer.analyzeFromImportStatement
    rw [hm]
    simp only [hmod, if_false]
    rw [hai]
    simp only [hsplit]
    simp [hclass]
  · unfold addImportedClass updateTypeStats notifyTypesChanged
    simp [jsOrElse, hempty]
  · intro hne
    unfold addImportedClass updateTypeStats notifyTypesChanged
    simp only [jsOrElse]
    rw [if_neg hempty]
    exact mapGet_mapSet_ne _ al orig _ hne

/-- Witness for C10 amended at the concrete import from m import Orig as
Al inserted into the empty registry. -/
theorem spec_c10_witness :
    TypeAnalyzer.analyzeFromImportStatement aliasedOkNode [] =
      [{ className := "Orig", source := "m", aliasName := some "Al",
         isFromImport := true,
         importStatement := some "from m import Orig as Al" }] ∧
    (addImportedClass {} "Orig" "f.py" (some "Al")).types.importedClasses =
      mapSet ({} : World).types.importedClasses "Al"
        { originalName := "Orig", filePath := "f.py" } ∧
    mapGet (addImportedClass {} "Orig" "f.py"
      (some "Al")).types.importedClasses "Orig" =
      mapGet ({} : World).types.importedClasses "Orig" := by
  have h := spec_c10 aliasedOkNode [] (TSNode.node "dotted_name" "m" [])
    (TSNode.node "aliased_import" "Orig as Al"
      [TSNode.node "dotted_name" "Orig" [], TSNode.node "as" "as" [],
       TSNode.node "identifier" "Al" []])
    "Orig" "Al" {} "f.py" rfl (by decide) rfl rfl rfl (by decide)
  exact ⟨h.1, h.2.1, h.2.2 (by decide)⟩
